import Mathlib

/-!
Verification of the dual-backend LRU cache subsystem of the repository
(`src/cache_module/`): the in-memory LRU cache (`lru_memory_cache.py`),
the SQLite-backed LRU cache (`lru_sqlite_cache.py`) and the cache manager
(`cache_manager.py`), as a shallow embedding in Lean.

Modelling conventions:
- Python `datetime.now()` is modelled by an explicit integer time argument
  passed to each in-memory operation; SQLite `CURRENT_TIMESTAMP` is modelled
  by a logical clock stored in the database state that strictly increases
  with every executed statement batch.
- Python dynamic attribute access is modelled by `PyVal`: a langchain
  `Generation` carries a `.text` attribute, a plain `str` does not, so
  reading `.text` from a `str` yields `none` (an `AttributeError`).
- `sqlite3.Error` occurrences are modelled by an error oracle argument
  (`Option String`): `none` means the statement batch succeeds, `some e`
  means the engine raises an error with message `e`; the `with self.conn`
  context manager rolls the transaction back, so a failed operation leaves
  the database state unchanged.
-/

/-- A Python value passed to a cache `update`: either a langchain
`Generation` (which has a `.text` attribute) or a plain string
(which does not). -/
inductive PyVal where
  | gen (text : String)
  | str (s : String)
  deriving Repr, DecidableEq

/-- Reading the `.text` attribute: succeeds on a `Generation`, raises
`AttributeError` (modelled as `none`) on a plain string. -/
def PyVal.textAttr : PyVal → Option String
  | .gen t => some t
  | .str _ => none

/-- A cache entry of the in-memory backend: the dict
`{response, created_at, last_accessed}` stored in `self._cache`. -/
structure MemEntry where
  response : String
  created_at : Int
  last_accessed : Int
  deriving Repr, DecidableEq

/-- Cache keys are `(prompt, llm_string)` pairs (`_generate_key`). -/
abbrev CacheKey := String × String

/-- State of `LRUInMemoryCache`: the ordered dict `_cache` (head of the
list = least recently used, tail = most recently used), the clamped
`max_size`, the optional `ttl`, and the `_stats` counters. -/
structure LRUInMemoryCache where
  cache : List (CacheKey × MemEntry)
  max_size : Nat
  ttl : Option Int
  hits : Nat
  misses : Nat
  evictions : Nat
  expired : Nat
  deriving Repr, DecidableEq

namespace LRUInMemoryCache

/-- Constructor `__init__`: empty dict, `max_size = max(max_size, 1)`,
zeroed counters. -/
def mkCache (maxSize : Int) (ttl : Option Int) : LRUInMemoryCache :=
  { cache := [], max_size := (max maxSize 1).toNat, ttl := ttl
    hits := 0, misses := 0, evictions := 0, expired := 0 }

/-- `_generate_key`: the pair `(prompt, llm_string)`. -/
def generateKey (prompt llm_string : String) : CacheKey :=
  (prompt, llm_string)

/-- Association-list lookup for the `OrderedDict`: first entry stored
under `key` (keys are unique in a dict, so first = only). -/
def findEntry (key : CacheKey) : List (CacheKey × MemEntry) → Option MemEntry
  | [] => none
  | (k, e) :: rest => if k = key then some e else findEntry key rest

/-- Deletion `del self._cache[key]`: removes the (unique) binding of
`key`, modelled as removal of the first occurrence. -/
def eraseKey (key : CacheKey) :
    List (CacheKey × MemEntry) → List (CacheKey × MemEntry)
  | [] => []
  | (k, e) :: rest => if k = key then rest else (k, e) :: eraseKey key rest

/-- The loop `while len(self._cache) >= self.max_size:
self._cache.popitem(last=False)` of `update`. Returns the surviving
entries and the list of evicted entries in eviction order. The source
clamps `max_size ≥ 1`, so `popitem` is never reached on an empty dict. -/
def evictWhile (maxSize : Nat) :
    List (CacheKey × MemEntry) → List (CacheKey × MemEntry) × List (CacheKey × MemEntry)
  | [] => ([], [])
  | x :: rest =>
    if rest.length + 1 ≥ maxSize then
      let (rem, ev) := evictWhile maxSize rest
      (rem, x :: ev)
    else (x :: rest, [])

/-- The loop `while len(self._cache) > self.max_size:
self._cache.popitem(last=False)` of `resize` (strict comparison). -/
def resizeEvict (maxSize : Nat) :
    List (CacheKey × MemEntry) → List (CacheKey × MemEntry) × List (CacheKey × MemEntry)
  | [] => ([], [])
  | x :: rest =>
    if rest.length + 1 > maxSize then
      let (rem, ev) := resizeEvict maxSize rest
      (rem, x :: ev)
    else (x :: rest, [])

/-- `_is_expired`: no TTL means never expired; otherwise expired when the
elapsed time since `last_accessed` strictly exceeds the TTL. -/
def isExpired (c : LRUInMemoryCache) (now : Int) (e : MemEntry) : Bool :=
  match c.ttl with
  | none => false
  | some t => decide (now - e.last_accessed > t)

/-- `lookup`: miss on absent key (miss counter), lazy TTL expiry (entry
removed, expired and miss counters), otherwise move to the MRU end,
refresh `last_accessed`, count a hit and return
`Generation(text=entry[response])`. -/
def lookup (c : LRUInMemoryCache) (now : Int) (prompt llm_string : String) :
    Option PyVal × LRUInMemoryCache :=
  let key := generateKey prompt llm_string
  match findEntry key c.cache with
  | none => (none, { c with misses := c.misses + 1 })
  | some e =>
    if isExpired c now e then
      (none, { c with cache := eraseKey key c.cache
                      expired := c.expired + 1
                      misses := c.misses + 1 })
    else
      (some (.gen e.response),
       { c with cache := eraseKey key c.cache ++ [(key, { e with last_accessed := now })]
                hits := c.hits + 1 })

/-- `update`: delete any existing binding of the key, run the LRU
eviction loop, then insert the new entry at the MRU end. Evaluating
`return_val.text` happens when the new entry dict is built, after the
eviction loop: if `return_val` has no `.text` attribute the
`AttributeError` propagates with the deletion and evictions already
applied. -/
def update (c : LRUInMemoryCache) (now : Int) (prompt llm_string : String)
    (return_val : PyVal) : Except Unit Unit × LRUInMemoryCache :=
  let key := generateKey prompt llm_string
  let afterDel := eraseKey key c.cache
  let rem := (evictWhile c.max_size afterDel).1
  let ev := (evictWhile c.max_size afterDel).2
  match return_val.textAttr with
  | none =>
    (Except.error (),
     { c with cache := rem, evictions := c.evictions + ev.length })
  | some t =>
    (Except.ok (),
     { c with cache := rem ++ [(key, ⟨t, now, now⟩)]
              evictions := c.evictions + ev.length })

/-- `clear`: drop all entries and reset the counters (`_reset_stats`). -/
def clear (c : LRUInMemoryCache) : LRUInMemoryCache :=
  { c with cache := [], hits := 0, misses := 0, evictions := 0, expired := 0 }

/-- `resize`: clamp and store the new bound, then evict from the LRU end
while the size strictly exceeds it. -/
def resize (c : LRUInMemoryCache) (new_size : Int) : LRUInMemoryCache :=
  let m := (max new_size 1).toNat
  { c with max_size := m
           cache := (resizeEvict m c.cache).1
           evictions := c.evictions + (resizeEvict m c.cache).2.length }

/-- Keys of the ordered dict are pairwise distinct (a dict invariant). -/
def NodupKeys (c : LRUInMemoryCache) : Prop :=
  (c.cache.map Prod.fst).Nodup

instance (c : LRUInMemoryCache) : Decidable c.NodupKeys := by
  unfold NodupKeys; infer_instance

end LRUInMemoryCache

/-- One persisted row of the `lru_cache` table:
`{id, prompt, llm_string, response, created_at, last_accessed}`. -/
structure SRow where
  id : Nat
  prompt : String
  llm_string : String
  response : String
  created_at : Nat
  last_accessed : Nat
  deriving Repr, DecidableEq

/-- State of `LRUSQLiteCache`: the rows of the `lru_cache` table, the
clamped `max_size` baked into the eviction trigger, the next rowid the
engine will assign, and the logical `CURRENT_TIMESTAMP` clock. -/
structure LRUSQLiteCache where
  rows : List SRow
  max_size : Nat
  nextId : Nat
  clock : Nat
  deriving Repr, DecidableEq

namespace LRUSQLiteCache

/-- Ordering used by the eviction trigger: `ORDER BY last_accessed ASC`. -/
def accessLE (a b : SRow) : Prop :=
  a.last_accessed ≤ b.last_accessed

instance : DecidableRel accessLE := fun a b =>
  Nat.decLe a.last_accessed b.last_accessed

instance : IsTotal SRow accessLE := ⟨fun a b =>
  Nat.le_total a.last_accessed b.last_accessed⟩

instance : IsTrans SRow accessLE := ⟨fun _ _ _ => Nat.le_trans⟩

/-- Predicate for `WHERE prompt = ? AND llm_string = ?`. -/
def rowMatches (prompt llm_string : String) (r : SRow) : Bool :=
  r.prompt == prompt && r.llm_string == llm_string

/-- The `trigger_lru_eviction` trigger, fired `AFTER INSERT`: when the
row count exceeds `max_size`, delete the rows whose `id` is selected by
`SELECT id FROM lru_cache ORDER BY last_accessed ASC LIMIT count - max_size`. -/
def triggerLruEviction (maxSize : Nat) (rows : List SRow) : List SRow :=
  if rows.length > maxSize then
    rows.filter (fun r =>
      decide (r.id ∉
        ((List.insertionSort accessLE rows).take (rows.length - maxSize)).map SRow.id))
  else rows

/-- A freshly set-up database: empty table, `max_size` clamped to at
least 1 by `__init__`, rowids starting at 1. -/
def freshDb (maxSize : Int) : LRUSQLiteCache :=
  { rows := [], max_size := (max maxSize 1).toNat, nextId := 1, clock := 0 }

/-- `_setup_database` reached from `__init__(database_path, max_size)`:
a storage-engine error is re-raised as a fatal `RuntimeError`, aborting
construction; otherwise the (empty) table, indexes and trigger exist. -/
def setupDatabase (err : Option String) (database_path : String) (maxSize : Int) :
    Except String LRUSQLiteCache :=
  match err with
  | some e => .error ("初始化LRU缓存数据库失败: " ++ e)
  | none =>
    let _ := database_path
    .ok (freshDb maxSize)

/-- Table contents midway through the `update` transaction: the
`INSERT OR REPLACE` has deleted any row conflicting on the unique
`(prompt, llm_string)` key and inserted a fresh row stamped with
`CURRENT_TIMESTAMP`, but the `AFTER INSERT` trigger has not fired yet. -/
def pendingRows (c : LRUSQLiteCache) (prompt llm_string return_val : String) :
    List SRow :=
  c.rows.filter (fun r => !rowMatches prompt llm_string r) ++
    [⟨c.nextId, prompt, llm_string, return_val, c.clock, c.clock⟩]

/-- `update`: `INSERT OR REPLACE` deletes any row conflicting on the
unique `(prompt, llm_string)` key, inserts a fresh row stamped with
`CURRENT_TIMESTAMP`, and the `AFTER INSERT` trigger evicts inside the
same transaction (the same unit of work). On `sqlite3.Error` the
transaction rolls back, the error is swallowed by `_handle_error`, and
the call is a no-op. -/
def update (err : Option String) (c : LRUSQLiteCache)
    (prompt llm_string return_val : String) : LRUSQLiteCache :=
  match err with
  | some _ => c
  | none =>
    { rows := triggerLruEviction c.max_size (pendingRows c prompt llm_string return_val)
      max_size := c.max_size
      nextId := c.nextId + 1
      clock := c.clock + 1 }

/-- `lookup`: select the response for the key; on a hit a second
statement refreshes `last_accessed` to `CURRENT_TIMESTAMP` before the
transaction commits. On `sqlite3.Error` the transaction rolls back and
the call degrades to a miss. -/
def lookup (err : Option String) (c : LRUSQLiteCache) (prompt llm_string : String) :
    Option String × LRUSQLiteCache :=
  match err with
  | some _ => (none, c)
  | none =>
    match c.rows.find? (rowMatches prompt llm_string) with
    | none => (none, { c with clock := c.clock + 1 })
    | some r =>
      (some r.response,
       { c with
          rows := c.rows.map (fun x =>
            if rowMatches prompt llm_string x then { x with last_accessed := c.clock } else x)
          clock := c.clock + 1 })

/-- `clear`: `DELETE FROM lru_cache`; the rowid sequence is not reset.
On `sqlite3.Error` the call is a swallowed no-op. -/
def clear (err : Option String) (c : LRUSQLiteCache) : LRUSQLiteCache :=
  match err with
  | some _ => c
  | none => { c with rows := [], clock := c.clock + 1 }

/-- Stats payload of `get_stats`: the base dict always carries `type`,
`max_size` and `status`; the queried fields are only present when the
queries succeed. The stubbed hit rate `0.0` is modelled as `0`. -/
structure SqlStats where
  type : String
  max_size : Nat
  status : String
  current_size : Option Nat
  oldest_entry : Option Nat
  newest_entry : Option Nat
  hit_rate : Option Nat
  deriving Repr, DecidableEq

/-- `get_stats`: on success the row count, the extreme `last_accessed`
values and the stubbed hit rate are added; on `sqlite3.Error` the
`status` field degrades to the error message and the queried fields are
absent. -/
def getStats (err : Option String) (c : LRUSQLiteCache) : SqlStats :=
  match err with
  | some e =>
    { type := "lru_sqlite", max_size := c.max_size, status := "error: " ++ e
      current_size := none, oldest_entry := none, newest_entry := none
      hit_rate := none }
  | none =>
    { type := "lru_sqlite", max_size := c.max_size, status := "active"
      current_size := some c.rows.length
      oldest_entry := (c.rows.map SRow.last_accessed).min?
      newest_entry := (c.rows.map SRow.last_accessed).max?
      hit_rate := some 0 }

/-- Well-formedness of a database state, established by `setupDatabase`
and preserved by every operation: rowids are pairwise distinct and below
the next rowid, access stamps are below the clock, and the trigger bound
is at least 1 (clamped by `__init__`). -/
structure WF (c : LRUSQLiteCache) : Prop where
  idsNodup : (c.rows.map SRow.id).Nodup
  idsLt : ∀ r ∈ c.rows, r.id < c.nextId
  accessLt : ∀ r ∈ c.rows, r.last_accessed < c.clock
  maxPos : 1 ≤ c.max_size

/-- A sequence of `update` calls, each given as
`(prompt, llm_string, return_val)`, run with no storage errors. -/
def runUpdates (c : LRUSQLiteCache) :
    List (String × String × String) → LRUSQLiteCache
  | [] => c
  | (p, l, v) :: rest => runUpdates (update none c p l v) rest

end LRUSQLiteCache

/-- The cache-relevant fields of `Config`. -/
structure Config where
  ENABLE_CACHE : Bool
  CACHE_TYPE : String
  CACHE_PATH : String
  CACHE_MAX_SIZE : Int
  CACHE_TTL : Option Int
  deriving Repr, DecidableEq

/-- The value of `langchain.llm_cache` installed by the manager:
`none` models Python `None` (caching disabled). -/
inductive Backend where
  | none
  | memory (c : LRUInMemoryCache)
  | sqlite (c : LRUSQLiteCache)
  deriving Repr, DecidableEq

/-- Manager instance state after `_initialize` ran `_init_cache`:
the installed backend plus `_cache_initialized`, `_last_error` and
`_init_attempts`. -/
structure ManagerState where
  llm_cache : Backend
  cache_initialized : Bool
  last_error : Option String
  init_attempts : Nat
  deriving Repr, DecidableEq

namespace CacheManager

/-- `_initialize` followed by `_init_cache`: caching disabled installs
`None`; `CACHE_TYPE == "sqlite"` builds the SQLite backend, whose setup
failure is caught, recorded in `_last_error`, and leaves `llm_cache =
None`; every other `CACHE_TYPE` string falls through to the in-memory
backend. -/
def initCache (cfg : Config) (setupErr : Option String) : ManagerState :=
  if !cfg.ENABLE_CACHE then
    { llm_cache := .none, cache_initialized := false
      last_error := Option.none, init_attempts := 0 }
  else if cfg.CACHE_TYPE = "sqlite" then
    match LRUSQLiteCache.setupDatabase setupErr cfg.CACHE_PATH cfg.CACHE_MAX_SIZE with
    | .ok c =>
      { llm_cache := .sqlite c, cache_initialized := true
        last_error := Option.none, init_attempts := 1 }
    | .error e =>
      { llm_cache := .none, cache_initialized := false
        last_error := some e, init_attempts := 1 }
  else
    { llm_cache := .memory (LRUInMemoryCache.mkCache cfg.CACHE_MAX_SIZE cfg.CACHE_TTL)
      cache_initialized := true
      last_error := Option.none, init_attempts := 1 }

/-- Result dict of `health_check`. -/
structure Health where
  healthy : Bool
  message : String
  cache_type : String
  deriving Repr, DecidableEq

/-- `health_check`: disabled caching is healthy; the `"sqlite"` config
branch probes `sqlite3.connect(CACHE_PATH)` directly (oracle
`probeErr`); otherwise, when the installed backend has a `lookup`
attribute, it writes the sentinel key `("health_check", "test")` with
the plain string `"test_value"` and compares the subsequent `lookup`
result against that string. Any exception is caught and reported as an
unhealthy message. The in-memory `update` receives a `str` where its
signature declares a `Generation`, so reading `.text` raises
`AttributeError` inside the probe. -/
def healthCheck (cfg : Config) (b : Backend) (probeErr : Option String)
    (now : Int) : Health × Backend :=
  if !cfg.ENABLE_CACHE then
    (⟨true, "缓存功能已禁用", cfg.CACHE_TYPE⟩, b)
  else if cfg.CACHE_TYPE = "sqlite" then
    match probeErr with
    | some e => (⟨false, "健康检查失败: " ++ e, cfg.CACHE_TYPE⟩, b)
    | .none => (⟨true, "SQLite缓存连接正常", cfg.CACHE_TYPE⟩, b)
  else
    match b with
    | .memory c =>
      match (LRUInMemoryCache.update c now "health_check" "test" (.str "test_value")).1 with
      | .error _ =>
        (⟨false, "健康检查失败: AttributeError", cfg.CACHE_TYPE⟩,
         .memory (LRUInMemoryCache.update c now "health_check" "test" (.str "test_value")).2)
      | .ok _ =>
        let c1 := (LRUInMemoryCache.update c now "health_check" "test" (.str "test_value")).2
        if (c1.lookup now "health_check" "test").1 = some (.str "test_value") then
          (⟨true, "内存缓存功能正常", cfg.CACHE_TYPE⟩,
           .memory (c1.lookup now "health_check" "test").2)
        else
          (⟨false, "内存缓存功能异常", cfg.CACHE_TYPE⟩,
           .memory (c1.lookup now "health_check" "test").2)
    | .sqlite c =>
      let c1 := LRUSQLiteCache.update probeErr c "health_check" "test" "test_value"
      if (LRUSQLiteCache.lookup probeErr c1 "health_check" "test").1 = some "test_value" then
        (⟨true, "内存缓存功能正常", cfg.CACHE_TYPE⟩,
         .sqlite (LRUSQLiteCache.lookup probeErr c1 "health_check" "test").2)
      else
        (⟨false, "内存缓存功能异常", cfg.CACHE_TYPE⟩,
         .sqlite (LRUSQLiteCache.lookup probeErr c1 "health_check" "test").2)
    | .none => (⟨false, "未知缓存类型", cfg.CACHE_TYPE⟩, b)

/-- Result dict of `clear_cache`. -/
structure ClearResult where
  success : Bool
  message : String
  cache_type : String
  deriving Repr, DecidableEq

/-- `clear_cache`: the `"sqlite"` config branch unlinks the cache file
when it exists (`err` models a filesystem exception, caught by the
surrounding `try`); otherwise a backend exposing `clear` is cleared (the
SQLite backend swallows its own engine errors, so that call still counts
as a success); with no usable backend a failure dict is returned. The
returned triple is `(result, llm_cache after, file exists after)`. -/
def clearCache (cfg : Config) (b : Backend) (fileExists : Bool)
    (err : Option String) : ClearResult × Backend × Bool :=
  if cfg.CACHE_TYPE = "sqlite" then
    if fileExists then
      match err with
      | some e => (⟨false, "清空缓存失败: " ++ e, cfg.CACHE_TYPE⟩, b, fileExists)
      | .none => (⟨true, "SQLite缓存已清空", cfg.CACHE_TYPE⟩, b, false)
    else
      (⟨false, "SQLite缓存文件不存在", cfg.CACHE_TYPE⟩, b, fileExists)
  else
    match b with
    | .memory c =>
      (⟨true, "内存缓存已清空", cfg.CACHE_TYPE⟩, .memory c.clear, fileExists)
    | .sqlite c =>
      (⟨true, "内存缓存已清空", cfg.CACHE_TYPE⟩, .sqlite (LRUSQLiteCache.clear err c),
       fileExists)
    | .none =>
      (⟨false, "未知缓存类型或缓存未初始化", cfg.CACHE_TYPE⟩, b, fileExists)

end CacheManager

/-- A small concrete in-memory cache used by the witnesses: capacity 1,
no TTL, holding the single key `("k1", "s1")`. -/
def memDemo : LRUInMemoryCache :=
  ((LRUInMemoryCache.mkCache 1 Option.none).update 0 "k1" "s1" (.gen "a")).2

/-- A small concrete SQLite cache state used by the witnesses: capacity
1 after one insert. -/
def sqlDemo : LRUSQLiteCache :=
  LRUSQLiteCache.update Option.none (LRUSQLiteCache.freshDb 1) "k1" "s1" "a"

namespace LRUInMemoryCache

theorem findEntry_eq_none_of_not_mem {key : CacheKey}
    {l : List (CacheKey × MemEntry)} (h : key ∉ l.map Prod.fst) :
    findEntry key l = none := by
  induction l with
  | nil => rfl
  | cons x rest ih =>
    obtain ⟨k, e⟩ := x
    simp only [List.map_cons, List.mem_cons, not_or] at h
    have hk : ¬ k = key := fun hk => h.1 hk.symm
    simp only [findEntry, if_neg hk]
    exact ih h.2

theorem findEntry_eq_none_iff {key : CacheKey}
    {l : List (CacheKey × MemEntry)} :
    findEntry key l = none ↔ key ∉ l.map Prod.fst := by
  constructor
  · intro h hmem
    induction l with
    | nil => simp at hmem
    | cons x rest ih =>
      obtain ⟨k, e⟩ := x
      simp only [List.map_cons, List.mem_cons] at hmem
      by_cases hk : k = key
      · simp [findEntry, hk] at h
      · rcases hmem with h1 | h1
        · exact hk h1.symm
        · simp only [findEntry, if_neg hk] at h
          exact ih h h1
  · exact findEntry_eq_none_of_not_mem

theorem findEntry_eraseKey_self {key : CacheKey}
    {l : List (CacheKey × MemEntry)} (h : (l.map Prod.fst).Nodup) :
    findEntry key (eraseKey key l) = none := by
  induction l with
  | nil => rfl
  | cons x rest ih =>
    obtain ⟨k, e⟩ := x
    simp only [List.map_cons, List.nodup_cons] at h
    by_cases hk : k = key
    · simp only [eraseKey, if_pos hk]
      exact findEntry_eq_none_of_not_mem (hk ▸ h.1)
    · simp only [eraseKey, if_neg hk, findEntry, if_neg hk]
      exact ih h.2

theorem findEntry_eraseKey_ne {k key : CacheKey} (hne : k ≠ key)
    (l : List (CacheKey × MemEntry)) :
    findEntry k (eraseKey key l) = findEntry k l := by
  induction l with
  | nil => rfl
  | cons x rest ih =>
    obtain ⟨k', e⟩ := x
    by_cases hk : k' = key
    · subst hk
      have h2 : ¬ k' = k := fun h => hne h.symm
      simp [eraseKey, findEntry, h2]
    · simp only [eraseKey, if_neg hk, findEntry]
      by_cases hk' : k' = k
      · simp [hk']
      · simp only [if_neg hk', ih]

theorem findEntry_append_sentinel {k key : CacheKey} (hne : k ≠ key)
    (l : List (CacheKey × MemEntry)) (e : MemEntry) :
    findEntry k (l ++ [(key, e)]) = findEntry k l := by
  induction l with
  | nil =>
    have h2 : ¬ key = k := fun h => hne h.symm
    simp [findEntry, h2]
  | cons x rest ih =>
    obtain ⟨k', e'⟩ := x
    by_cases hk : k' = k
    · simp [findEntry, hk]
    · simp only [List.cons_append, findEntry, if_neg hk]
      exact ih

theorem findEntry_append_self_of_none {key : CacheKey}
    {l : List (CacheKey × MemEntry)} (h : findEntry key l = none) (e : MemEntry) :
    findEntry key (l ++ [(key, e)]) = some e := by
  induction l with
  | nil => simp [findEntry]
  | cons x rest ih =>
    obtain ⟨k', e'⟩ := x
    by_cases hk : k' = key
    · simp [findEntry, hk] at h
    · simp only [findEntry, if_neg hk] at h
      simp only [List.cons_append, findEntry, if_neg hk]
      exact ih h

theorem eraseKey_length_of_found {key : CacheKey}
    {l : List (CacheKey × MemEntry)} {e : MemEntry}
    (h : findEntry key l = some e) :
    (eraseKey key l).length + 1 = l.length := by
  induction l with
  | nil => simp [findEntry] at h
  | cons x rest ih =>
    obtain ⟨k', e'⟩ := x
    by_cases hk : k' = key
    · simp [eraseKey, hk]
    · simp only [findEntry, if_neg hk] at h
      simp only [eraseKey, if_neg hk, List.length_cons, ih h]

theorem evictWhile_append_eq (m : Nat) (l : List (CacheKey × MemEntry)) :
    (evictWhile m l).2 ++ (evictWhile m l).1 = l := by
  induction l with
  | nil => rfl
  | cons x rest ih =>
    by_cases h : rest.length + 1 ≥ m
    · simp only [evictWhile, if_pos h]
      simpa using ih
    · simp [evictWhile, if_neg h]

theorem evictWhile_length_lt {m : Nat} (hm : 1 ≤ m)
    (l : List (CacheKey × MemEntry)) : (evictWhile m l).1.length < m := by
  induction l with
  | nil => simpa [evictWhile] using hm
  | cons x rest ih =>
    by_cases h : rest.length + 1 ≥ m
    · simpa only [evictWhile, if_pos h] using ih
    · simp only [evictWhile, if_neg h, List.length_cons]
      omega

theorem evictWhile_of_lt {m : Nat} {l : List (CacheKey × MemEntry)}
    (h : l.length < m) : evictWhile m l = (l, []) := by
  cases l with
  | nil => rfl
  | cons x rest =>
    simp only [List.length_cons] at h
    simp [evictWhile, Nat.not_le.mpr h]

theorem resizeEvict_length_le (m : Nat) (l : List (CacheKey × MemEntry)) :
    (resizeEvict m l).1.length ≤ m := by
  induction l with
  | nil => simp [resizeEvict]
  | cons x rest ih =>
    by_cases h : rest.length + 1 > m
    · simpa only [resizeEvict, if_pos h] using ih
    · simp only [resizeEvict, if_neg h, List.length_cons]
      omega

theorem resizeEvict_of_le {m : Nat} {l : List (CacheKey × MemEntry)}
    (h : l.length ≤ m) : resizeEvict m l = (l, []) := by
  cases l with
  | nil => rfl
  | cons x rest =>
    simp only [List.length_cons] at h
    simp [resizeEvict, Nat.not_lt.mpr h]

end LRUInMemoryCache

namespace LRUInMemoryCache

/-- C1: for every `update` call on the in-memory backend (hence after
each call of any sequence), the number of stored entries is at most
`max_size`; the entries evicted by the capacity loop form a prefix of
the current recency order (least-recently-touched first, ties broken by
insertion order because the ordered dict is kept in recency order), and
the eviction counter grows by exactly the number of evicted entries. -/
theorem mem_update_capacity_and_lru_eviction
    (c : LRUInMemoryCache) (now : Int) (prompt llm_string : String) (v : PyVal)
    (hmax : 1 ≤ c.max_size) :
    (c.update now prompt llm_string v).2.cache.length ≤ c.max_size ∧
    (evictWhile c.max_size (eraseKey (generateKey prompt llm_string) c.cache)).2 ++
        (evictWhile c.max_size (eraseKey (generateKey prompt llm_string) c.cache)).1 =
      eraseKey (generateKey prompt llm_string) c.cache ∧
    (c.update now prompt llm_string v).2.evictions =
      c.evictions +
        (evictWhile c.max_size (eraseKey (generateKey prompt llm_string) c.cache)).2.length := by
  have hlt := evictWhile_length_lt hmax (eraseKey (generateKey prompt llm_string) c.cache)
  refine ⟨?_, evictWhile_append_eq _ _, ?_⟩
  · cases v with
    | gen t =>
      simp only [update, PyVal.textAttr, List.length_append, List.length_cons,
        List.length_nil]
      omega
    | str s =>
      simp only [update, PyVal.textAttr]
      omega
  · cases v with
    | gen t => simp [update, PyVal.textAttr]
    | str s => simp [update, PyVal.textAttr]

/-- Witness for C1: inserting a second key into the full `memDemo`
cache evicts the previously stored key and keeps the size at 1. -/
theorem mem_update_capacity_and_lru_eviction_witness :
    1 ≤ memDemo.max_size ∧
    ((memDemo.update 1 "k2" "s2" (.gen "b")).2.cache.length ≤ memDemo.max_size ∧
     (evictWhile memDemo.max_size (eraseKey (generateKey "k2" "s2") memDemo.cache)).2 ++
         (evictWhile memDemo.max_size (eraseKey (generateKey "k2" "s2") memDemo.cache)).1 =
       eraseKey (generateKey "k2" "s2") memDemo.cache ∧
     (memDemo.update 1 "k2" "s2" (.gen "b")).2.evictions =
       memDemo.evictions +
         (evictWhile memDemo.max_size (eraseKey (generateKey "k2" "s2") memDemo.cache)).2.length) :=
  ⟨by decide, mem_update_capacity_and_lru_eviction memDemo 1 "k2" "s2" (.gen "b") (by decide)⟩

/-- C5: with `ttl = T` configured, looking up a key whose entry has
`now - last_accessed > T` returns `none`, increments `expired` and
`misses` by exactly one, and removes the entry; an immediately
subsequent lookup of the same key is an ordinary miss, incrementing
`misses` but not `expired`. -/
theorem mem_lookup_ttl_expiry
    (c : LRUInMemoryCache) (now : Int) (prompt llm_string : String) (T : Int)
    (e : MemEntry)
    (hnodup : c.NodupKeys)
    (httl : c.ttl = some T)
    (hfound : findEntry (generateKey prompt llm_string) c.cache = some e)
    (hexpired : now - e.last_accessed > T) :
    (c.lookup now prompt llm_string).1 = none ∧
    (c.lookup now prompt llm_string).2.expired = c.expired + 1 ∧
    (c.lookup now prompt llm_string).2.misses = c.misses + 1 ∧
    findEntry (generateKey prompt llm_string) (c.lookup now prompt llm_string).2.cache =
      none ∧
    ((c.lookup now prompt llm_string).2.lookup now prompt llm_string).1 = none ∧
    ((c.lookup now prompt llm_string).2.lookup now prompt llm_string).2.misses =
      c.misses + 2 ∧
    ((c.lookup now prompt llm_string).2.lookup now prompt llm_string).2.expired =
      c.expired + 1 := by
  have hexp : isExpired c now e = true := by
    simp [isExpired, httl, hexpired]
  have hgone : findEntry (generateKey prompt llm_string)
      (eraseKey (generateKey prompt llm_string) c.cache) = none :=
    findEntry_eraseKey_self hnodup
  refine ⟨?_, ?_, ?_, ?_, ?_, ?_, ?_⟩ <;>
    simp [lookup, hfound, hexp, hgone]

/-- Witness for C5: a cache with `ttl = 10` holding an entry last
accessed at time 0, looked up at time 11. -/
theorem mem_lookup_ttl_expiry_witness :
    (((LRUInMemoryCache.mkCache 5 (some 10)).update 0 "a" "b" (.gen "x")).2.NodupKeys ∧
     ((LRUInMemoryCache.mkCache 5 (some 10)).update 0 "a" "b" (.gen "x")).2.ttl = some 10 ∧
     findEntry (generateKey "a" "b")
       ((LRUInMemoryCache.mkCache 5 (some 10)).update 0 "a" "b" (.gen "x")).2.cache =
       some ⟨"x", 0, 0⟩ ∧
     (11 : Int) - (0 : Int) > 10) ∧
    ((((LRUInMemoryCache.mkCache 5 (some 10)).update 0 "a" "b" (.gen "x")).2.lookup
        11 "a" "b").1 = none ∧
     (((LRUInMemoryCache.mkCache 5 (some 10)).update 0 "a" "b" (.gen "x")).2.lookup
        11 "a" "b").2.expired =
       ((LRUInMemoryCache.mkCache 5 (some 10)).update 0 "a" "b" (.gen "x")).2.expired + 1) :=
  ⟨⟨by decide, by decide, by decide, by decide⟩,
   (mem_lookup_ttl_expiry
      ((LRUInMemoryCache.mkCache 5 (some 10)).update 0 "a" "b" (.gen "x")).2
      11 "a" "b" 10 ⟨"x", 0, 0⟩ (by decide) (by decide) (by decide) (by decide)).1,
   (mem_lookup_ttl_expiry
      ((LRUInMemoryCache.mkCache 5 (some 10)).update 0 "a" "b" (.gen "x")).2
      11 "a" "b" 10 ⟨"x", 0, 0⟩ (by decide) (by decide) (by decide) (by decide)).2.1⟩

/-- C8: `resize(n)` is idempotent (running it twice yields exactly the
same state as running it once), and when `n` is at least the current
size it evicts nothing: the entries and the eviction counter are
unchanged. -/
theorem mem_resize_idempotent (c : LRUInMemoryCache) (n : Int) :
    (c.resize n).resize n = c.resize n ∧
    ((c.cache.length : Int) ≤ n →
      (c.resize n).cache = c.cache ∧ (c.resize n).evictions = c.evictions) := by
  constructor
  · have hlen : (resizeEvict (max n 1).toNat c.cache).1.length ≤ (max n 1).toNat :=
      resizeEvict_length_le _ _
    have h2 := resizeEvict_of_le hlen
    simp [resize, h2]
  · intro hle
    have hlen : c.cache.length ≤ (max n 1).toNat := by
      have h1 : (c.cache.length : Int) ≤ max n 1 := le_trans hle (le_max_left n 1)
      omega
    have h2 := resizeEvict_of_le hlen
    simp [resize, h2]

/-- Witness for C8: resizing `memDemo` (size 1) to 5 twice equals doing
it once, and evicts nothing. -/
theorem mem_resize_idempotent_witness :
    ((memDemo.cache.length : Int) ≤ 5) ∧
    ((memDemo.resize 5).resize 5 = memDemo.resize 5 ∧
     (memDemo.resize 5).cache = memDemo.cache ∧
     (memDemo.resize 5).evictions = memDemo.evictions) :=
  ⟨by decide,
   (mem_resize_idempotent memDemo 5).1,
   (mem_resize_idempotent memDemo 5).2 (by decide)⟩

/-- C10: when the cache satisfies `size ≤ max_size` and the updated key
is already present, `update` evicts nothing (the capacity loop input is
already below the bound), leaves the eviction counter unchanged, and
leaves the entry found for every other key unchanged. -/
theorem mem_update_existing_key_frame
    (c : LRUInMemoryCache) (now : Int) (prompt llm_string : String) (v : PyVal)
    (e : MemEntry)
    (hfound : findEntry (generateKey prompt llm_string) c.cache = some e)
    (hsize : c.cache.length ≤ c.max_size) :
    evictWhile c.max_size (eraseKey (generateKey prompt llm_string) c.cache) =
      (eraseKey (generateKey prompt llm_string) c.cache, []) ∧
    (c.update now prompt llm_string v).2.evictions = c.evictions ∧
    (∀ k : CacheKey, k ≠ generateKey prompt llm_string →
      findEntry k (c.update now prompt llm_string v).2.cache = findEntry k c.cache) := by
  have hlen := eraseKey_length_of_found hfound
  have hlt : (eraseKey (generateKey prompt llm_string) c.cache).length < c.max_size := by
    omega
  have hev := evictWhile_of_lt hlt
  refine ⟨hev, ?_, ?_⟩
  · cases v with
    | gen t => simp [update, PyVal.textAttr, hev]
    | str s => simp [update, PyVal.textAttr, hev]
  · intro k hk
    cases v with
    | gen t =>
      simp only [update, PyVal.textAttr, hev]
      rw [findEntry_append_sentinel hk, findEntry_eraseKey_ne hk]
    | str s =>
      simp only [update, PyVal.textAttr, hev]
      rw [findEntry_eraseKey_ne hk]

/-- Witness for C10: re-updating the key already present in the full
`memDemo` cache evicts nothing and leaves another key's (absent)
binding unchanged. -/
theorem mem_update_existing_key_frame_witness :
    (findEntry (generateKey "k1" "s1") memDemo.cache = some ⟨"a", 0, 0⟩ ∧
     memDemo.cache.length ≤ memDemo.max_size) ∧
    (evictWhile memDemo.max_size (eraseKey (generateKey "k1" "s1") memDemo.cache) =
       (eraseKey (generateKey "k1" "s1") memDemo.cache, []) ∧
     (memDemo.update 7 "k1" "s1" (.gen "zz")).2.evictions = memDemo.evictions ∧
     findEntry ("other", "key") (memDemo.update 7 "k1" "s1" (.gen "zz")).2.cache =
       findEntry ("other", "key") memDemo.cache) :=
  ⟨⟨by decide, by decide⟩,
   (mem_update_existing_key_frame memDemo 7 "k1" "s1" (.gen "zz") ⟨"a", 0, 0⟩
      (by decide) (by decide)).1,
   (mem_update_existing_key_frame memDemo 7 "k1" "s1" (.gen "zz") ⟨"a", 0, 0⟩
      (by decide) (by decide)).2.1,
   (mem_update_existing_key_frame memDemo 7 "k1" "s1" (.gen "zz") ⟨"a", 0, 0⟩
      (by decide) (by decide)).2.2 ("other", "key") (by decide)⟩

end LRUInMemoryCache

namespace LRUSQLiteCache

theorem update_rows_eq (c : LRUSQLiteCache) (p l v : String) :
    (update none c p l v).rows =
      triggerLruEviction c.max_size (pendingRows c p l v) := rfl

theorem update_nextId (c : LRUSQLiteCache) (p l v : String) :
    (update none c p l v).nextId = c.nextId + 1 := rfl

theorem update_clock (c : LRUSQLiteCache) (p l v : String) :
    (update none c p l v).clock = c.clock + 1 := rfl

theorem update_max_size (c : LRUSQLiteCache) (p l v : String) :
    (update none c p l v).max_size = c.max_size := rfl

/-- The trigger keeps exactly the rows whose `last_accessed` ranks above
the `count - max_size` smallest: its output is a permutation of the
sorted-by-access list with the oldest `count - max_size` rows dropped
(when the bound is not exceeded nothing is dropped). Needs pairwise
distinct rowids, which the `INTEGER PRIMARY KEY` column guarantees. -/
theorem triggerLruEviction_perm {rows : List SRow}
    (hids : (rows.map SRow.id).Nodup) (m : Nat) :
    (triggerLruEviction m rows).Perm
      ((List.insertionSort accessLE rows).drop (rows.length - m)) := by
  unfold triggerLruEviction
  by_cases hlen : rows.length > m
  · rw [if_pos hlen]
    set sorted := List.insertionSort accessLE rows with hsorted
    set k := rows.length - m with hk
    set f : SRow → Bool := fun r => decide (r.id ∉ (sorted.take k).map SRow.id) with hf
    have hperm : sorted.Perm rows := List.perm_insertionSort _ _
    have hids2 : (sorted.map SRow.id).Nodup := ((hperm.map SRow.id).nodup_iff).mpr hids
    have hsplit : sorted.take k ++ sorted.drop k = sorted := List.take_append_drop k sorted
    have hmapsplit :
        (sorted.take k).map SRow.id ++ (sorted.drop k).map SRow.id = sorted.map SRow.id := by
      rw [← List.map_append, hsplit]
    have hdisj : ∀ a, a ∈ (sorted.take k).map SRow.id →
        a ∈ (sorted.drop k).map SRow.id → False := by
      intro a h1 h2
      rw [← hmapsplit, List.nodup_append] at hids2
      exact hids2.2.2 h1 h2
    have htake : (sorted.take k).filter f = [] := by
      rw [List.filter_eq_nil_iff]
      intro r hr
      simp only [hf, decide_eq_true_eq, not_not]
      exact List.mem_map_of_mem SRow.id hr
    have hdrop : (sorted.drop k).filter f = sorted.drop k := by
      rw [List.filter_eq_self]
      intro r hr
      simp only [hf, decide_eq_true_eq]
      intro hmem
      exact hdisj r.id hmem (List.mem_map_of_mem SRow.id hr)
    have heq : sorted.filter f = sorted.drop k := by
      conv_lhs => rw [← hsplit]
      rw [List.filter_append, htake, hdrop, List.nil_append]
    rw [← heq]
    exact (hperm.filter f).symm
  · rw [if_neg hlen]
    have h0 : rows.length - m = 0 := by omega
    rw [h0, List.drop_zero]
    exact (List.perm_insertionSort _ _).symm

/-- The rowids of the mid-transaction table are pairwise distinct: the
kept rows inherit distinctness from the table and the inserted row
carries the fresh rowid. -/
theorem pendingRows_ids_nodup (c : LRUSQLiteCache) (hwf : c.WF) (p l v : String) :
    ((pendingRows c p l v).map SRow.id).Nodup := by
  have hsub : (c.rows.filter (fun r => !rowMatches p l r)).Sublist c.rows :=
    List.filter_sublist _
  have hkept : ((c.rows.filter (fun r => !rowMatches p l r)).map SRow.id).Nodup :=
    List.Nodup.sublist (hsub.map SRow.id) hwf.idsNodup
  have hnot : c.nextId ∉ (c.rows.filter (fun r => !rowMatches p l r)).map SRow.id := by
    intro hmem
    obtain ⟨r, hr, hid⟩ := List.mem_map.mp hmem
    have := hwf.idsLt r (List.mem_of_mem_filter hr)
    omega
  unfold pendingRows
  rw [List.map_append]
  refine ((List.perm_append_singleton _ _).nodup_iff).mpr ?_
  exact List.nodup_cons.mpr ⟨hnot, hkept⟩

/-- In a list sorted ascending by `last_accessed`, all of whose stamps
are at most `m` and where at most one row attains `m`, every row in a
proper prefix has a stamp strictly below `m`. -/
theorem sorted_take_lt {l : List SRow} {m : Nat}
    (hs : List.Sorted accessLE l)
    (hle : ∀ x ∈ l, x.last_accessed ≤ m)
    (hcount : l.countP (fun r => decide (r.last_accessed = m)) ≤ 1) :
    ∀ k, k + 1 ≤ l.length → ∀ x ∈ l.take k, x.last_accessed < m := by
  induction l with
  | nil =>
    intro k _ x hx
    simp at hx
  | cons a t ih =>
    intro k hk x hx
    cases k with
    | zero => simp at hx
    | succ k' =>
      rw [List.take_succ_cons] at hx
      rcases List.mem_cons.mp hx with rfl | hx'
      · have hale : x.last_accessed ≤ m := hle x (List.mem_cons_self x t)
        rcases lt_or_eq_of_le hale with h | h
        · exact h
        · exfalso
          have htne : t ≠ [] := by
            intro h0
            rw [h0] at hk
            simp at hk
          obtain ⟨y, hy⟩ := List.exists_mem_of_ne_nil t htne
          have hay : x.last_accessed ≤ y.last_accessed := (List.sorted_cons.mp hs).1 y hy
          have hyle : y.last_accessed ≤ m := hle y (List.mem_cons_of_mem x hy)
          have hym : y.last_accessed = m := by omega
          have h1 : 0 < t.countP (fun r => decide (r.last_accessed = m)) :=
            List.countP_pos_iff.mpr ⟨y, hy, by simp [hym]⟩
          have h2 : (fun r => decide (r.last_accessed = m)) x = true := by simp [h]
          rw [List.countP_cons_of_pos _ t h2] at hcount
          omega
      · refine ih (List.sorted_cons.mp hs).2
          (fun z hz => hle z (List.mem_cons_of_mem a hz)) ?_ k' ?_ x hx'
        · rw [List.countP_cons] at hcount
          omega
        · simp only [List.length_cons] at hk
          omega

end LRUSQLiteCache

namespace LRUSQLiteCache

theorem update_rows_sublist (c : LRUSQLiteCache) (p l v : String) :
    ((update none c p l v).rows).Sublist (pendingRows c p l v) := by
  rw [update_rows_eq]
  unfold triggerLruEviction
  split
  · exact List.filter_sublist _
  · exact List.Sublist.refl _

/-- Every access stamp in the mid-transaction table is at most the
current clock, the inserted row being the only one that attains it. -/
theorem pendingRows_access_le (c : LRUSQLiteCache) (hwf : c.WF) (p l v : String) :
    ∀ x ∈ pendingRows c p l v, x.last_accessed ≤ c.clock := by
  intro x hx
  rcases List.mem_append.mp hx with hk | hn
  · exact le_of_lt (hwf.accessLt x (List.mem_of_mem_filter hk))
  · rw [List.mem_singleton] at hn
    rw [hn]

theorem pendingRows_countP_clock (c : LRUSQLiteCache) (hwf : c.WF) (p l v : String) :
    (pendingRows c p l v).countP (fun r => decide (r.last_accessed = c.clock)) ≤ 1 := by
  unfold pendingRows
  rw [List.countP_append]
  have hz : (c.rows.filter (fun r => !rowMatches p l r)).countP
      (fun r => decide (r.last_accessed = c.clock)) = 0 := by
    rw [List.countP_eq_zero]
    intro r hr
    have := hwf.accessLt r (List.mem_of_mem_filter hr)
    simp only [decide_eq_true_eq]
    omega
  rw [hz]
  simp [List.countP_cons]

/-- The freshly inserted row survives the eviction trigger: it carries
the strictly newest access stamp, so it is never among the oldest rows
selected for deletion. -/
theorem update_newRow_mem (c : LRUSQLiteCache) (hwf : c.WF) (p l v : String) :
    (⟨c.nextId, p, l, v, c.clock, c.clock⟩ : SRow) ∈ (update none c p l v).rows := by
  have hperm := triggerLruEviction_perm (pendingRows_ids_nodup c hwf p l v) c.max_size
  rw [update_rows_eq, hperm.mem_iff]
  set rows1 := pendingRows c p l v with hr1
  set sorted := List.insertionSort accessLE rows1 with hsorted
  set k := rows1.length - c.max_size with hk
  have hmemNew : (⟨c.nextId, p, l, v, c.clock, c.clock⟩ : SRow) ∈ sorted := by
    rw [hsorted, List.mem_insertionSort, hr1]
    unfold pendingRows
    exact List.mem_append.mpr (Or.inr (List.mem_singleton.mpr rfl))
  have hsplit := List.take_append_drop k sorted
  have h2 : (⟨c.nextId, p, l, v, c.clock, c.clock⟩ : SRow) ∈
      sorted.take k ++ sorted.drop k := by
    rw [hsplit]
    exact hmemNew
  rcases List.mem_append.mp h2 with htk | hdk
  · exfalso
    have hkpos : k ≠ 0 := by
      intro h0
      rw [h0] at htk
      simp at htk
    have hlen : k + 1 ≤ sorted.length := by
      rw [hsorted, List.length_insertionSort]
      have := hwf.maxPos
      omega
    have hle : ∀ x ∈ sorted, x.last_accessed ≤ c.clock := by
      intro x hx
      rw [hsorted, List.mem_insertionSort] at hx
      exact pendingRows_access_le c hwf p l v x hx
    have hcount : sorted.countP (fun r => decide (r.last_accessed = c.clock)) ≤ 1 := by
      rw [hsorted, (List.perm_insertionSort accessLE rows1).countP_eq]
      exact pendingRows_countP_clock c hwf p l v
    have hlt := sorted_take_lt (List.sorted_insertionSort accessLE rows1) hle hcount
      k hlen _ htk
    simp at hlt
  · exact hdk

/-- C6 core for the durable backend: an `update` immediately followed by
a `lookup` of the same key observes the just-written value. -/
theorem update_lookup_roundtrip (c : LRUSQLiteCache) (hwf : c.WF) (p l v : String) :
    (lookup none (update none c p l v) p l).1 = some v := by
  have hmemNew := update_newRow_mem c hwf p l v
  have huniq : ∀ r ∈ (update none c p l v).rows, rowMatches p l r = true →
      r = ⟨c.nextId, p, l, v, c.clock, c.clock⟩ := by
    intro r hr hm
    have hr1 : r ∈ pendingRows c p l v := (update_rows_sublist c p l v).subset hr
    rcases List.mem_append.mp hr1 with hkk | hn
    · exfalso
      have hnm := (List.mem_filter.mp hkk).2
      rw [hm] at hnm
      simp at hnm
    · exact List.mem_singleton.mp hn
  have hmatch : rowMatches p l (⟨c.nextId, p, l, v, c.clock, c.clock⟩ : SRow) = true := by
    simp [rowMatches]
  have hfind : (update none c p l v).rows.find? (rowMatches p l) =
      some ⟨c.nextId, p, l, v, c.clock, c.clock⟩ := by
    have his : ((update none c p l v).rows.find? (rowMatches p l)).isSome :=
      List.find?_isSome.mpr ⟨_, hmemNew, hmatch⟩
    obtain ⟨r, hr⟩ := Option.isSome_iff_exists.mp his
    have h1 := List.find?_some hr
    have h2 := List.mem_of_find?_eq_some hr
    rw [hr, huniq r h2 h1]
  simp [lookup, hfind]

/-- C2 core: after any completed `update` the row count is at most
`max_size`. -/
theorem update_length_le (c : LRUSQLiteCache) (hwf : c.WF) (p l v : String) :
    (update none c p l v).rows.length ≤ c.max_size := by
  have hperm := triggerLruEviction_perm (pendingRows_ids_nodup c hwf p l v) c.max_size
  rw [update_rows_eq, hperm.length_eq, List.length_drop, List.length_insertionSort]
  omega

theorem wf_freshDb (n : Int) : (freshDb n).WF := by
  constructor
  · simp [freshDb]
  · intro r hr
    simp [freshDb] at hr
  · intro r hr
    simp [freshDb] at hr
  · have h1 : (1 : Int) ≤ max n 1 := le_max_right n 1
    simp only [freshDb]
    omega

theorem wf_update (c : LRUSQLiteCache) (hwf : c.WF) (p l v : String) :
    (update none c p l v).WF := by
  have hsub := update_rows_sublist c p l v
  constructor
  · exact List.Nodup.sublist (hsub.map SRow.id) (pendingRows_ids_nodup c hwf p l v)
  · intro r hr
    rw [update_nextId]
    rcases List.mem_append.mp (hsub.subset hr) with hkk | hn
    · have := hwf.idsLt r (List.mem_of_mem_filter hkk)
      omega
    · rw [List.mem_singleton.mp hn]
      exact Nat.lt_succ_self c.nextId
  · intro r hr
    rw [update_clock]
    rcases List.mem_append.mp (hsub.subset hr) with hkk | hn
    · have := hwf.accessLt r (List.mem_of_mem_filter hkk)
      omega
    · rw [List.mem_singleton.mp hn]
      exact Nat.lt_succ_self c.clock
  · rw [update_max_size]
    exact hwf.maxPos

theorem wf_runUpdates (c : LRUSQLiteCache) (hwf : c.WF)
    (ops : List (String × String × String)) : (runUpdates c ops).WF := by
  induction ops generalizing c with
  | nil => exact hwf
  | cons op rest ih =>
    obtain ⟨p, l, v⟩ := op
    exact ih _ (wf_update c hwf p l v)

end LRUSQLiteCache

namespace LRUSQLiteCache

/-- C2: starting from a fresh durable cache, after any sequence of
completed `update` calls followed by one more `update`, the persisted
row count never exceeds `max_size`; the surviving rows are exactly (a
permutation of) the mid-transaction table with its `count - max_size`
oldest-by-`last_accessed` rows dropped, the candidate order being the
ascending `last_accessed` sort used by `trigger_lru_eviction`. The
deletion and the insert form one `update` step (one transaction) in the
model. -/
theorem sqlite_update_capacity_and_lru_eviction
    (n : Int) (ops : List (String × String × String)) (p l v : String) :
    (update none (runUpdates (freshDb n) ops) p l v).rows.length ≤
        (runUpdates (freshDb n) ops).max_size ∧
    List.Sorted accessLE
      (List.insertionSort accessLE (pendingRows (runUpdates (freshDb n) ops) p l v)) ∧
    (update none (runUpdates (freshDb n) ops) p l v).rows.Perm
      ((List.insertionSort accessLE (pendingRows (runUpdates (freshDb n) ops) p l v)).drop
        ((pendingRows (runUpdates (freshDb n) ops) p l v).length -
          (runUpdates (freshDb n) ops).max_size)) := by
  have hwf := wf_runUpdates (freshDb n) (wf_freshDb n) ops
  refine ⟨update_length_le _ hwf p l v, List.sorted_insertionSort accessLE _, ?_⟩
  rw [update_rows_eq]
  exact triggerLruEviction_perm (pendingRows_ids_nodup _ hwf p l v) _

/-- C7: on the durable backend a storage-engine error during setup
aborts construction with a raised `RuntimeError`, while a storage-engine
error during `lookup`, `update`, `clear` or `get_stats` is swallowed and
the operation degrades to its safe default: a miss, a no-op, a no-op,
and a partial stats payload with a degraded `status`, respectively. -/
theorem sqlite_error_degradation (e database_path : String) (n : Int)
    (c : LRUSQLiteCache) (p l v : String) :
    setupDatabase (some e) database_path n =
      Except.error ("初始化LRU缓存数据库失败: " ++ e) ∧
    lookup (some e) c p l = (none, c) ∧
    update (some e) c p l v = c ∧
    clear (some e) c = c ∧
    getStats (some e) c =
      { type := "lru_sqlite", max_size := c.max_size, status := "error: " ++ e
        current_size := none, oldest_entry := none, newest_entry := none
        hit_rate := none } :=
  ⟨rfl, rfl, rfl, rfl, rfl⟩

end LRUSQLiteCache

/-- C6: on both backends, `update(k, v)` immediately followed by
`lookup(k)` on the same backend returns `v` (synchronous read-after-
write; the in-memory value is the `Generation` rebuilt from the stored
text, the durable value is the stored response string). The fresh entry
cannot be the eviction victim, so no hypothesis about eviction is
needed beyond well-formedness of the state. -/
theorem roundtrip_read_after_write
    (c : LRUInMemoryCache) (s : LRUSQLiteCache) (now : Int)
    (prompt llm_string t : String)
    (hnodup : c.NodupKeys)
    (httl : 0 ≤ c.ttl.getD 0)
    (hwf : s.WF) :
    ((c.update now prompt llm_string (.gen t)).2.lookup now prompt llm_string).1 =
      some (.gen t) ∧
    (LRUSQLiteCache.lookup none (LRUSQLiteCache.update none s prompt llm_string t)
        prompt llm_string).1 = some t := by
  refine ⟨?_, LRUSQLiteCache.update_lookup_roundtrip s hwf prompt llm_string t⟩
  have hnone : LRUInMemoryCache.findEntry (LRUInMemoryCache.generateKey prompt llm_string)
      (LRUInMemoryCache.eraseKey (LRUInMemoryCache.generateKey prompt llm_string) c.cache) =
      none :=
    LRUInMemoryCache.findEntry_eraseKey_self hnodup
  have hnotmem := LRUInMemoryCache.findEntry_eq_none_iff.mp hnone
  have happ := LRUInMemoryCache.evictWhile_append_eq c.max_size
    (LRUInMemoryCache.eraseKey (LRUInMemoryCache.generateKey prompt llm_string) c.cache)
  have hremnot : LRUInMemoryCache.generateKey prompt llm_string ∉
      ((LRUInMemoryCache.evictWhile c.max_size
        (LRUInMemoryCache.eraseKey (LRUInMemoryCache.generateKey prompt llm_string)
          c.cache)).1).map Prod.fst := by
    intro hmem
    apply hnotmem
    rw [← happ, List.map_append]
    exact List.mem_append.mpr (Or.inr hmem)
  have hremnone := LRUInMemoryCache.findEntry_eq_none_iff.mpr hremnot
  have hfind : LRUInMemoryCache.findEntry (LRUInMemoryCache.generateKey prompt llm_string)
      ((c.update now prompt llm_string (.gen t)).2.cache) =
      some ⟨t, now, now⟩ := by
    simp only [LRUInMemoryCache.update, PyVal.textAttr]
    exact LRUInMemoryCache.findEntry_append_self_of_none hremnone _
  have httlcase : LRUInMemoryCache.isExpired (c.update now prompt llm_string (.gen t)).2
      now ⟨t, now, now⟩ = false := by
    have hsame : (c.update now prompt llm_string (.gen t)).2.ttl = c.ttl := rfl
    rcases hc : c.ttl with _ | T
    · simp [LRUInMemoryCache.isExpired, hsame, hc]
    · have hT : 0 ≤ T := by
        rw [hc] at httl
        simpa using httl
      simp only [LRUInMemoryCache.isExpired, hsame, hc, decide_eq_false_iff_not]
      omega
  simp [LRUInMemoryCache.lookup, hfind, httlcase]

/-- Witness for C6: round trip on the concrete single-entry `memDemo`
cache and on a fresh durable cache of capacity 1. -/
theorem roundtrip_read_after_write_witness :
    (memDemo.NodupKeys ∧ 0 ≤ memDemo.ttl.getD 0 ∧ (LRUSQLiteCache.freshDb 1).WF) ∧
    (((memDemo.update 5 "p2" "l2" (.gen "vv")).2.lookup 5 "p2" "l2").1 =
        some (.gen "vv") ∧
     (LRUSQLiteCache.lookup none
        (LRUSQLiteCache.update none (LRUSQLiteCache.freshDb 1) "p2" "l2" "vv")
        "p2" "l2").1 = some "vv") :=
  ⟨⟨by decide, by decide, LRUSQLiteCache.wf_freshDb 1⟩,
   roundtrip_read_after_write memDemo (LRUSQLiteCache.freshDb 1) 5 "p2" "l2" "vv"
     (by decide) (by decide) (LRUSQLiteCache.wf_freshDb 1)⟩

namespace CacheManager

/-- C3 counterexample: with the unrecognized backend type string
`"bogus"` the manager does NOT install the disabled backend and records
NO diagnostic — it silently falls through to the in-memory backend,
reports a successful initialization and leaves `last_error` empty. -/
theorem manager_unknown_type_counterexample :
    (initCache ⟨true, "bogus", ".rag_cache.db", 1000, some 3600⟩ Option.none).llm_cache =
      Backend.memory (LRUInMemoryCache.mkCache 1000 (some 3600)) ∧
    (initCache ⟨true, "bogus", ".rag_cache.db", 1000, some 3600⟩ Option.none).llm_cache ≠
      Backend.none ∧
    (initCache ⟨true, "bogus", ".rag_cache.db", 1000, some 3600⟩ Option.none).last_error =
      Option.none ∧
    (initCache ⟨true, "bogus", ".rag_cache.db", 1000, some 3600⟩ Option.none).cache_initialized =
      true := by
  exact ⟨by decide, by decide, by decide, by decide⟩

/-- C3 (amended): for every enabled configuration whose backend type
string is not `"sqlite"` — recognized `"memory"` or not — the manager
silently installs the in-memory backend, reports success and records no
diagnostic; `healthCheck()` does end up reporting unhealthy, but only
because the in-memory probe itself raises an `AttributeError`, not
because a disabled backend was installed. -/
theorem manager_unknown_type_defaults_to_memory (cfg : Config)
    (setupErr probeErr : Option String) (now : Int)
    (hen : cfg.ENABLE_CACHE = true) (hty : cfg.CACHE_TYPE ≠ "sqlite") :
    initCache cfg setupErr =
      ⟨.memory (LRUInMemoryCache.mkCache cfg.CACHE_MAX_SIZE cfg.CACHE_TTL), true,
        Option.none, 1⟩ ∧
    (healthCheck cfg (initCache cfg setupErr).llm_cache probeErr now).1.healthy =
      false ∧
    (healthCheck cfg (initCache cfg setupErr).llm_cache probeErr now).1.message =
      "健康检查失败: AttributeError" := by
  have h1 : initCache cfg setupErr =
      ⟨.memory (LRUInMemoryCache.mkCache cfg.CACHE_MAX_SIZE cfg.CACHE_TTL), true,
        Option.none, 1⟩ := by
    unfold initCache
    rw [hen]
    simp [hty]
  refine ⟨h1, ?_, ?_⟩ <;>
  · rw [h1]
    unfold healthCheck
    rw [hen]
    simp [hty, LRUInMemoryCache.update, PyVal.textAttr]

/-- Witness for the amended C3 at the concrete `"bogus"` configuration. -/
theorem manager_unknown_type_defaults_to_memory_witness :
    ((⟨true, "bogus", ".rag_cache.db", 1000, some 3600⟩ : Config).ENABLE_CACHE = true ∧
     (⟨true, "bogus", ".rag_cache.db", 1000, some 3600⟩ : Config).CACHE_TYPE ≠ "sqlite") ∧
    (initCache ⟨true, "bogus", ".rag_cache.db", 1000, some 3600⟩ Option.none =
       ⟨.memory (LRUInMemoryCache.mkCache 1000 (some 3600)), true, Option.none, 1⟩ ∧
     (healthCheck ⟨true, "bogus", ".rag_cache.db", 1000, some 3600⟩
        (initCache ⟨true, "bogus", ".rag_cache.db", 1000, some 3600⟩ Option.none).llm_cache
        Option.none 9).1.healthy = false) :=
  ⟨⟨rfl, by decide⟩,
   (manager_unknown_type_defaults_to_memory
      ⟨true, "bogus", ".rag_cache.db", 1000, some 3600⟩ Option.none Option.none 9
      rfl (by decide)).1,
   (manager_unknown_type_defaults_to_memory
      ⟨true, "bogus", ".rag_cache.db", 1000, some 3600⟩ Option.none Option.none 9
      rfl (by decide)).2.1⟩

/-- C4 (code evaluated at the failing input): for every enabled
non-`"sqlite"` configuration and every properly initialized in-memory
backend, `health_check` reports unhealthy, because the probe passes the
plain string `"test_value"` to `update` — whose signature declares a
`Generation` — and reading `.text` raises an `AttributeError` that the
surrounding `try` converts to a failure message. The claimed
`healthy = true` report is unreachable for this backend. -/
theorem health_check_memory_probe_fails (cfg : Config) (c : LRUInMemoryCache)
    (probeErr : Option String) (now : Int)
    (hen : cfg.ENABLE_CACHE = true) (hty : cfg.CACHE_TYPE ≠ "sqlite") :
    (healthCheck cfg (.memory c) probeErr now).1.healthy = false ∧
    (healthCheck cfg (.memory c) probeErr now).1.message =
      "健康检查失败: AttributeError" := by
  unfold healthCheck
  rw [hen]
  simp [hty, LRUInMemoryCache.update, PyVal.textAttr]

/-- Witness for C4 at a concrete `"memory"` configuration and the
concrete `memDemo` backend state. -/
theorem health_check_memory_probe_fails_witness :
    ((⟨true, "memory", ".rag_cache.db", 1, Option.none⟩ : Config).ENABLE_CACHE = true ∧
     (⟨true, "memory", ".rag_cache.db", 1, Option.none⟩ : Config).CACHE_TYPE ≠ "sqlite") ∧
    ((healthCheck ⟨true, "memory", ".rag_cache.db", 1, Option.none⟩ (.memory memDemo)
        Option.none 3).1.healthy = false ∧
     (healthCheck ⟨true, "memory", ".rag_cache.db", 1, Option.none⟩ (.memory memDemo)
        Option.none 3).1.message = "健康检查失败: AttributeError") :=
  ⟨⟨rfl, by decide⟩,
   health_check_memory_probe_fails ⟨true, "memory", ".rag_cache.db", 1, Option.none⟩
     memDemo Option.none 3 rfl (by decide)⟩

/-- C9: `clear_cache` is total (never throws) and always returns the
structured `{success, message, cache_type}` record carrying the
configured backend type, whatever the backend state, file state or error
oracle; for the `"sqlite"` configuration a successful clear deletes the
underlying database file; for any other configuration with the in-memory
backend installed it calls the backend's `clear`. -/
theorem clear_cache_structured (cfg : Config) (b : Backend) (fileExists : Bool)
    (err : Option String) :
    ((clearCache cfg b fileExists err).1.cache_type = cfg.CACHE_TYPE) ∧
    (cfg.CACHE_TYPE = "sqlite" → fileExists = true → err = Option.none →
      (clearCache cfg b fileExists err).1.success = true ∧
      (clearCache cfg b fileExists err).2.2 = false) ∧
    (∀ c : LRUInMemoryCache, cfg.CACHE_TYPE ≠ "sqlite" → b = .memory c →
      (clearCache cfg b fileExists err).1.success = true ∧
      (clearCache cfg b fileExists err).2.1 = .memory c.clear) := by
  refine ⟨?_, ?_, ?_⟩
  · by_cases h : cfg.CACHE_TYPE = "sqlite"
    · cases fileExists <;> cases err <;> simp [clearCache, h]
    · cases b <;> simp [clearCache, h]
  · intro h1 h2 h3
    subst h2
    subst h3
    simp [clearCache, h1]
  · intro c h1 h2
    subst h2
    simp [clearCache, h1]

/-- Witness for C9: one sqlite-configured clear that deletes the file
and one memory-configured clear that clears the backend. -/
theorem clear_cache_structured_witness :
    ((clearCache ⟨true, "sqlite", ".rag_cache.db", 9, Option.none⟩ Backend.none true
        Option.none).1.cache_type = "sqlite" ∧
     (clearCache ⟨true, "sqlite", ".rag_cache.db", 9, Option.none⟩ Backend.none true
        Option.none).1.success = true ∧
     (clearCache ⟨true, "sqlite", ".rag_cache.db", 9, Option.none⟩ Backend.none true
        Option.none).2.2 = false) ∧
    ((clearCache ⟨true, "memory", ".rag_cache.db", 9, Option.none⟩ (.memory memDemo) false
        Option.none).1.success = true ∧
     (clearCache ⟨true, "memory", ".rag_cache.db", 9, Option.none⟩ (.memory memDemo) false
        Option.none).2.1 = .memory memDemo.clear) :=
  ⟨⟨(clear_cache_structured ⟨true, "sqlite", ".rag_cache.db", 9, Option.none⟩ Backend.none
       true Option.none).1,
    (clear_cache_structured ⟨true, "sqlite", ".rag_cache.db", 9, Option.none⟩ Backend.none
       true Option.none).2.1 rfl rfl rfl⟩,
   (clear_cache_structured ⟨true, "memory", ".rag_cache.db", 9, Option.none⟩
      (.memory memDemo) false Option.none).2.2 memDemo (by decide) rfl⟩

end CacheManager
